import Mathlib

/-!
Shallow embedding of the real-time pitch-detection pipeline of the
precision-guitar-tuner repository, together with theorems checking the
natural-language specification against it.

The embedding follows `src/Layers/AudioProcessingLayer.{h,cpp}`,
`src/TuningPresets.{h,cpp}` and `src/Config.h`.  C++ `float` values are
modelled as rationals (`ℚ`); machine sizes as `ℕ`.  The pitch detector and
the pitch-stabilizer family live in the external `GuitarDSP` library (not
part of this repository's sources), so the pipeline code is embedded
parametrically over the detector function and over the stabilizer's
`Update`/`GetStabilized` behaviour, exactly as the pipeline itself only
touches them through those calls.
-/

namespace PrecisionTuner

/-- Result of pitch detection, `GuitarDSP::PitchResult`: a frequency and a
confidence value. -/
structure PitchResult where
  frequency : ℚ
  confidence : ℚ
deriving DecidableEq, Repr

/-- `AudioProcessingLayer::PitchData`: the snapshot returned by
`GetLatestPitch`. -/
structure PitchData where
  frequency : ℚ
  confidence : ℚ
  detected : Bool
deriving DecidableEq, Repr

/-- `AudioProcessingLayer::StabilizerType` (closed enum of stabilizer
variants). -/
inductive StabilizerType where
  | None
  | EMA
  | Median
  | Hybrid
deriving DecidableEq, Repr

/-- `AudioProcessingLayer::Config` (named `AudioProcessingLayerConfig` at the
constructor): the fields consumed by construction and per-frame processing. -/
structure AudioProcessingLayerConfig where
  sampleRate : ℕ := 48000
  bufferSize : ℕ := 2048
  minFrequency : ℚ := 80
  maxFrequency : ℚ := 1200
  stabilizerType : StabilizerType := StabilizerType.Hybrid
  emaAlpha : ℚ := 3/10
  medianWindowSize : ℕ := 5
deriving DecidableEq, Repr

/-- The stabilizer object installed in the pipeline's single polymorphic
slot: which concrete `GuitarDSP` class was constructed, with the
configuration values passed to its constructor
(`AudioProcessingLayer.cpp`, lines 166–193). -/
inductive StabilizerVariant where
  | ema (alpha : ℚ)
  | median (windowSize : ℕ)
  | hybrid (baseAlpha : ℚ) (windowSize : ℕ)
deriving DecidableEq, Repr

/-- The `switch (config.stabilizerType)` in the constructor: selects the
stabilizer for the slot exactly once (`nullptr` for `None`/`default`). -/
def selectStabilizer (c : AudioProcessingLayerConfig) : Option StabilizerVariant :=
  match c.stabilizerType with
  | StabilizerType.EMA => some (StabilizerVariant.ema c.emaAlpha)
  | StabilizerType.Median => some (StabilizerVariant.median c.medianWindowSize)
  | StabilizerType.Hybrid => some (StabilizerVariant.hybrid c.emaAlpha c.medianWindowSize)
  | StabilizerType.None => none

/-- The three published atomics `latestFrequency`, `latestConfidence`,
`pitchDetected` (single producer: the audio callback). -/
structure PitchAtomics where
  latestFrequency : ℚ
  latestConfidence : ℚ
  pitchDetected : Bool
deriving DecidableEq, Repr

/-- `AudioProcessingLayer::GetLatestPitch`: reads the three atomics into a
`PitchData` snapshot (lines 223–230). -/
def getLatestPitch (a : PitchAtomics) : PitchData :=
  { frequency := a.latestFrequency
    confidence := a.latestConfidence
    detected := a.pitchDetected }

/-- `AudioProcessingLayer::ProcessAudio` (lines 360–384), parametric over the
external detector's result for this frame and over the stabilizer's
`Update`/`GetStabilized` implementations.  The stabilizer slot is
`Option (StabilizerVariant × StabSt)`: the installed variant plus its
internal (mutable) state; `Update` mutates the internal state of the object
the slot points to, it never replaces the object. -/
def processAudio {StabSt : Type} (upd : StabSt → PitchResult → StabSt)
    (getStab : StabSt → PitchResult) (result : Option PitchResult)
    (stab : Option (StabilizerVariant × StabSt)) (a : PitchAtomics) :
    Option (StabilizerVariant × StabSt) × PitchAtomics :=
  match result with
  | some r =>
    match stab with
    | some (v, s) =>
      let s' := upd s r
      let stabilized := getStab s'
      (some (v, s'),
        { latestFrequency := stabilized.frequency
          latestConfidence := stabilized.confidence
          pitchDetected := true })
    | none =>
      (none,
        { latestFrequency := r.frequency
          latestConfidence := r.confidence
          pitchDetected := true })
  | none => (stab, { a with pitchDetected := false })

/-- C2: on a frame with no detector result, `ProcessAudio` writes only the
detected flag (to `false`), leaving the frequency/confidence atomics at the
previous cycle's values; `GetLatestPitch` then reads back
`detected = false` with the prior frequency and confidence. -/
theorem processAudio_no_detection {StabSt : Type} (upd : StabSt → PitchResult → StabSt)
    (getStab : StabSt → PitchResult) (stab : Option (StabilizerVariant × StabSt))
    (a : PitchAtomics) :
    processAudio upd getStab none stab a = (stab, { a with pitchDetected := false })
      ∧ getLatestPitch (processAudio upd getStab none stab a).2
        = { frequency := a.latestFrequency, confidence := a.latestConfidence,
            detected := false } :=
  ⟨rfl, rfl⟩

/-- C3: on a frame with a detector result `r`, `ProcessAudio` feeds `r` into
the stabilizer's `Update`, reads `GetStabilized`, and publishes the
stabilized frequency/confidence with `detected = true` (the raw result when
no stabilizer is installed); `GetLatestPitch` returns exactly the published
triple. -/
theorem processAudio_detection {StabSt : Type} (upd : StabSt → PitchResult → StabSt)
    (getStab : StabSt → PitchResult) (r : PitchResult) (v : StabilizerVariant)
    (s : StabSt) (a : PitchAtomics) :
    processAudio upd getStab (some r) (some (v, s)) a
        = (some (v, upd s r),
           { latestFrequency := (getStab (upd s r)).frequency
             latestConfidence := (getStab (upd s r)).confidence
             pitchDetected := true })
      ∧ processAudio upd getStab (some r) none a
        = (none,
           { latestFrequency := r.frequency
             latestConfidence := r.confidence
             pitchDetected := true })
      ∧ getLatestPitch (processAudio upd getStab (some r) (some (v, s)) a).2
        = { frequency := (getStab (upd s r)).frequency,
            confidence := (getStab (upd s r)).confidence, detected := true }
      ∧ getLatestPitch (processAudio upd getStab (some r) none a).2
        = { frequency := r.frequency, confidence := r.confidence, detected := true } :=
  ⟨rfl, rfl, rfl, rfl⟩

/-- C4: the stabilizer slot is selected exactly once at construction from the
closed variant set (`EMA ↦ ExponentialMovingAverage(alpha)`,
`Median ↦ MedianFilter(window)`, `Hybrid ↦ HybridStabilizer(alpha, window)`,
`None ↦ no stabilizer`); per frame, `ProcessAudio` never reassigns the slot
(the installed variant is preserved, only the stabilizer's internal state is
updated), and with no stabilizer installed the published per-frame output is
the raw detector result. -/
theorem stabilizer_slot_selection {StabSt : Type} (c : AudioProcessingLayerConfig) :
    selectStabilizer { c with stabilizerType := StabilizerType.EMA }
        = some (StabilizerVariant.ema c.emaAlpha)
      ∧ selectStabilizer { c with stabilizerType := StabilizerType.Median }
        = some (StabilizerVariant.median c.medianWindowSize)
      ∧ selectStabilizer { c with stabilizerType := StabilizerType.Hybrid }
        = some (StabilizerVariant.hybrid c.emaAlpha c.medianWindowSize)
      ∧ selectStabilizer { c with stabilizerType := StabilizerType.None } = none
      ∧ (∀ (upd : StabSt → PitchResult → StabSt) (getStab : StabSt → PitchResult)
          (result : Option PitchResult) (stab : Option (StabilizerVariant × StabSt))
          (a : PitchAtomics),
          ((processAudio upd getStab result stab a).1).map Prod.fst = stab.map Prod.fst)
      ∧ (∀ (upd : StabSt → PitchResult → StabSt) (getStab : StabSt → PitchResult)
          (r : PitchResult) (a : PitchAtomics),
          processAudio upd getStab (some r) none a
            = (none,
               { latestFrequency := r.frequency
                 latestConfidence := r.confidence
                 pitchDetected := true })) := by
  refine ⟨rfl, rfl, rfl, rfl, ?_, fun _ _ _ _ => rfl⟩
  intro upd getStab result stab a
  match result with
  | none => rfl
  | some r =>
    match stab with
    | none => rfl
    | some (v, s) => rfl

/-- `std::vector<float>::resize(n)`: truncates when shrinking, appends
value-initialized (`0`) elements when growing. -/
def resizeTo (l : List ℚ) (n : ℕ) : List ℚ :=
  if n ≤ l.length then l.take n else l ++ List.replicate (n - l.length) 0

/-- The gain stage of `InputCallback` (lines 304–307): each input sample is
multiplied by the loaded `inputGain`. -/
def applyGain (gain : ℚ) (buf : List ℚ) : List ℚ :=
  buf.map (fun x => x * gain)

/-- The peak-metering loop of `InputCallback` (lines 329–338): running
maximum of the absolute values of the gained buffer, starting from `0`. -/
def peakLevel (buf : List ℚ) : ℚ :=
  buf.foldl (fun m x => max m |x|) 0

/-- The monitoring-ring write loop of `InputCallback` (lines 314–327): each
gained sample is stored at `writePos`, which then advances modulo the ring
capacity. -/
def writeRing : List ℚ → List ℚ → ℕ → List ℚ × ℕ
  | [], ring, w => (ring, w)
  | s :: rest, ring, w => writeRing rest (ring.set w s) ((w + 1) % ring.length)

/-- The mutable per-layer state touched by `InputCallback`/`ProcessAudio`,
from the members of `AudioProcessingLayer` (header lines 192–235). -/
structure LayerState (StabSt : Type) where
  processingBuffer : List ℚ
  inputGain : ℚ
  inputMonitoringEnabled : Bool
  monitoringRingBuffer : List ℚ
  monitoringWritePos : ℕ
  monitoringReadPos : ℕ
  currentInputLevel : ℚ
  stab : Option (StabilizerVariant × StabSt)
  atomics : PitchAtomics

/-- The body of `InputCallback` for a valid layer and non-empty buffer
(lines 295–341): gain stage into the processing buffer (resizing it first
when the callback delivers more samples than it holds), pitch detection on
the gained span, monitoring-ring write when enabled, and peak-level
publish. -/
def processedLayer {StabSt : Type} (detect : List ℚ → Option PitchResult)
    (upd : StabSt → PitchResult → StabSt) (getStab : StabSt → PitchResult)
    (l : LayerState StabSt) (inputBuffer : List ℚ) : LayerState StabSt :=
  let gain := l.inputGain
  let pb0 :=
    if l.processingBuffer.length < inputBuffer.length then
      resizeTo l.processingBuffer inputBuffer.length
    else l.processingBuffer
  let gained := applyGain gain inputBuffer
  let pb := gained ++ pb0.drop inputBuffer.length
  let pa := processAudio upd getStab (detect gained) l.stab l.atomics
  let ring :=
    if l.inputMonitoringEnabled then
      writeRing gained l.monitoringRingBuffer l.monitoringWritePos
    else (l.monitoringRingBuffer, l.monitoringWritePos)
  { l with
      processingBuffer := pb
      stab := pa.1
      atomics := pa.2
      monitoringRingBuffer := ring.1
      monitoringWritePos := ring.2
      currentInputLevel := peakLevel gained }

/-- `AudioProcessingLayer::InputCallback` (lines 285–342): returns `1`
(stop stream) on a null layer or empty input buffer, otherwise processes the
frame and returns `0` (continue). -/
def inputCallback {StabSt : Type} (detect : List ℚ → Option PitchResult)
    (upd : StabSt → PitchResult → StabSt) (getStab : StabSt → PitchResult)
    (layer : Option (LayerState StabSt)) (inputBuffer : List ℚ) :
    Int × Option (LayerState StabSt) :=
  match layer with
  | none => (1, none)
  | some l =>
    if inputBuffer.isEmpty then (1, some l)
    else (0, some (processedLayer detect upd getStab l inputBuffer))

/-- `AudioProcessingLayer::GetInputLevel` (lines 712–715): reads the
published `currentInputLevel` atomic. -/
def getInputLevel {StabSt : Type} (l : LayerState StabSt) : ℚ :=
  l.currentInputLevel

/-- A concrete layer state used to instantiate theorems: gain `g`,
monitoring disabled, processing buffer `pb`, monitoring ring `ring`, no
stabilizer, zeroed atomics. -/
def mkLayer (g : ℚ) (pb ring : List ℚ) : LayerState Unit :=
  { processingBuffer := pb
    inputGain := g
    inputMonitoringEnabled := false
    monitoringRingBuffer := ring
    monitoringWritePos := 0
    monitoringReadPos := 0
    currentInputLevel := 0
    stab := none
    atomics := { latestFrequency := 0, latestConfidence := 0, pitchDetected := false } }

/-- A detector that never reports a pitch (used to instantiate theorems at
concrete inputs). -/
def noDetect : List ℚ → Option PitchResult := fun _ => none

/-- Trivial stabilizer update over the unit state (instantiation helper). -/
def upd0 : Unit → PitchResult → Unit := fun s _ => s

/-- Trivial stabilizer read over the unit state (instantiation helper). -/
def gs0 : Unit → PitchResult := fun _ => { frequency := 0, confidence := 0 }

/-- C6: `InputCallback` returns the stop-stream signal `1` exactly when the
layer pointer is null or the input buffer is empty; for a valid layer and a
non-empty buffer it processes the frame and returns `0`. -/
theorem inputCallback_stop_contract {StabSt : Type}
    (detect : List ℚ → Option PitchResult) (upd : StabSt → PitchResult → StabSt)
    (getStab : StabSt → PitchResult) (layer : Option (LayerState StabSt))
    (inputBuffer : List ℚ) :
    ((inputCallback detect upd getStab layer inputBuffer).1 = 1
        ↔ layer = none ∨ inputBuffer = [])
      ∧ (∀ l, layer = some l → inputBuffer ≠ [] →
          inputCallback detect upd getStab layer inputBuffer
            = (0, some (processedLayer detect upd getStab l inputBuffer))) := by
  constructor
  · match layer with
    | none => simp [inputCallback]
    | some l =>
      match inputBuffer with
      | [] => simp [inputCallback]
      | x :: rest => simp [inputCallback]
  · intro l hl hne
    subst hl
    match inputBuffer, hne with
    | x :: rest, _ => rfl

/-- Concrete instantiation of `inputCallback_stop_contract`: a valid layer
with a one-sample buffer continues the stream with the processed state. -/
theorem inputCallback_stop_contract_witness :
    inputCallback noDetect upd0 gs0 (some (mkLayer 1 [0, 0] (List.replicate 8 0))) [1]
      = (0, some (processedLayer noDetect upd0 gs0
          (mkLayer 1 [0, 0] (List.replicate 8 0)) [1])) :=
  (inputCallback_stop_contract noDetect upd0 gs0
      (some (mkLayer 1 [0, 0] (List.replicate 8 0))) [1]).2
    (mkLayer 1 [0, 0] (List.replicate 8 0)) rfl (by simp)

/-- C1 (divergence evidence): the processing buffer is NOT left at its
construction size by the callback, and no overflow latch exists.  With a
buffer pre-sized to 4 samples, a callback delivering 6 samples returns `0`
(continue) and leaves the processing buffer grown to 6 elements: the hot
path resizes (allocates) instead of flagging a capacity violation. -/
theorem inputCallback_resizes_in_hot_path :
    (inputCallback noDetect upd0 gs0
        (some (mkLayer 1 (List.replicate 4 0) (List.replicate 16 0)))
        (List.replicate 6 1)).1 = 0
      ∧ ((inputCallback noDetect upd0 gs0
          (some (mkLayer 1 (List.replicate 4 0) (List.replicate 16 0)))
          (List.replicate 6 1)).2.map
            (fun st => st.processingBuffer.length)) = some 6 := by
  constructor
  · rfl
  · rfl

/-- Modelled from the spec: the hybrid pitch detector
(`GuitarDSP::HybridPitchDetector::Detect`, external library code not present
in this repository's sources) returns "no detection" on an all-zero frame —
"Silence (all-zero or near-zero-energy frame): must return 'no detection',
not a spurious low-frequency result" (§4.1). -/
def SilenceRejecting (detect : List ℚ → Option PitchResult) : Prop :=
  ∀ buf : List ℚ, (∀ x ∈ buf, x = 0) → detect buf = none

/-- C7: for an all-zero input frame, the gained buffer is still all-zero, the
(silence-rejecting) detector returns no result, and the published snapshot of
the processed frame has `detected = false`. -/
theorem silence_publishes_no_detection {StabSt : Type}
    (detect : List ℚ → Option PitchResult) (upd : StabSt → PitchResult → StabSt)
    (getStab : StabSt → PitchResult) (hdet : SilenceRejecting detect)
    (l : LayerState StabSt) (buf : List ℚ) (hbuf : ∀ x ∈ buf, x = 0)
    (hne : buf ≠ []) :
    detect (applyGain l.inputGain buf) = none
      ∧ (inputCallback detect upd getStab (some l) buf).2
        = some (processedLayer detect upd getStab l buf)
      ∧ (processedLayer detect upd getStab l buf).atomics.pitchDetected = false
      ∧ (getLatestPitch (processedLayer detect upd getStab l buf).atomics).detected
        = false := by
  have hz : ∀ y ∈ applyGain l.inputGain buf, y = 0 := by
    intro y hy
    rcases List.mem_map.mp hy with ⟨x, hx, hxy⟩
    rw [← hxy, hbuf x hx, zero_mul]
  have hnone : detect (applyGain l.inputGain buf) = none := hdet _ hz
  refine ⟨hnone, ?_, ?_, ?_⟩
  · match buf, hne with
    | x :: rest, _ => rfl
  · simp only [processedLayer, hnone, processAudio]
  · simp only [processedLayer, hnone, processAudio, getLatestPitch]

/-- Concrete instantiation of `silence_publishes_no_detection`: a two-sample
all-zero frame through a layer with unit gain yields `detected = false`. -/
theorem silence_publishes_no_detection_witness :
    (processedLayer noDetect upd0 gs0 (mkLayer 1 [0, 0] (List.replicate 8 0))
        [0, 0]).atomics.pitchDetected = false :=
  (silence_publishes_no_detection noDetect upd0 gs0 (fun _ _ => rfl)
      (mkLayer 1 [0, 0] (List.replicate 8 0)) [0, 0] (by simp) (by simp)).2.2.1

/-- The running maximum in the peak-metering fold never drops below its
starting value. -/
theorem le_foldl_max (b : List ℚ) : ∀ m : ℚ, m ≤ b.foldl (fun m x => max m |x|) m := by
  induction b with
  | nil => intro m; simp
  | cons x rest ih =>
    intro m
    calc m ≤ max m |x| := le_max_left _ _
    _ ≤ rest.foldl (fun m x => max m |x|) (max m |x|) := ih _

/-- Every sample's absolute value is bounded by the peak-metering fold over a
list containing it. -/
theorem abs_mem_le_foldl_max (b : List ℚ) :
    ∀ (m x : ℚ), x ∈ b → |x| ≤ b.foldl (fun m x => max m |x|) m := by
  induction b with
  | nil => intro m x hx; cases hx
  | cons y rest ih =>
    intro m x hx
    rcases List.mem_cons.mp hx with h | h
    · subst h
      calc |x| ≤ max m |x| := le_max_right _ _
      _ ≤ rest.foldl (fun m x => max m |x|) (max m |x|) := le_foldl_max rest _
    · exact ih _ x h

/-- Scaling every sample by `a` scales the peak-metering fold by `|a|`. -/
theorem foldl_max_map_mul (a : ℚ) (b : List ℚ) :
    ∀ m : ℚ, (b.map (fun x => x * a)).foldl (fun m x => max m |x|) (|a| * m)
      = |a| * b.foldl (fun m x => max m |x|) m := by
  induction b with
  | nil => intro m; simp
  | cons x rest ih =>
    intro m
    have hstep : max (|a| * m) |x * a| = |a| * max m |x| := by
      rw [abs_mul, mul_comm |x| |a|, mul_max_of_nonneg _ _ (abs_nonneg a)]
    simp only [List.map_cons, List.foldl_cons, hstep]
    exact ih (max m |x|)

/-- The peak level is always non-negative. -/
theorem peakLevel_nonneg (b : List ℚ) : 0 ≤ peakLevel b :=
  le_foldl_max b 0

/-- The peak level dominates the absolute value of every sample. -/
theorem abs_le_peakLevel {b : List ℚ} {x : ℚ} (hx : x ∈ b) : |x| ≤ peakLevel b :=
  abs_mem_le_foldl_max b 0 x hx

/-- A buffer with a non-zero sample has strictly positive peak level. -/
theorem peakLevel_pos {b : List ℚ} {x : ℚ} (hx : x ∈ b) (hxne : x ≠ 0) :
    0 < peakLevel b :=
  lt_of_lt_of_le (abs_pos.mpr hxne) (abs_le_peakLevel hx)

/-- Scaling every sample by `a` (on the right) scales the peak level by
`|a|`. -/
theorem peakLevel_map_mul_right (a : ℚ) (b : List ℚ) :
    peakLevel (b.map (fun x => x * a)) = |a| * peakLevel b := by
  have h := foldl_max_map_mul a b 0
  rw [mul_zero] at h
  simpa [peakLevel] using h

/-- Scaling every sample by `c` (on the left) scales the peak level by
`|c|`. -/
theorem peakLevel_map_mul_left (c : ℚ) (b : List ℚ) :
    peakLevel (b.map (fun x => c * x)) = |c| * peakLevel b := by
  have : (fun x : ℚ => c * x) = fun x : ℚ => x * c := by
    funext x; exact mul_comm c x
  rw [this, peakLevel_map_mul_right]

/-- C5 (amended: the fixed gain must be non-zero): for a pair of buffers
equal up to a positive scale factor `c < 1` (so the first is strictly
quieter) with the second not all-zero, processed under the same non-zero
gain, the published input level of the quieter buffer is strictly smaller;
the callback publishes the processed state, and `GetInputLevel` returns the
published peak of the gained buffer. -/
theorem inputLevel_strict_mono {StabSt : Type}
    (detect : List ℚ → Option PitchResult) (upd : StabSt → PitchResult → StabSt)
    (getStab : StabSt → PitchResult) (l1 l2 : LayerState StabSt) (c : ℚ)
    (b2 : List ℚ) (hg : l1.inputGain = l2.inputGain) (hgn : l2.inputGain ≠ 0)
    (hc0 : 0 < c) (hc1 : c < 1) (hnz : ∃ x ∈ b2, x ≠ 0) :
    getInputLevel (processedLayer detect upd getStab l1 (b2.map (fun x => c * x)))
        < getInputLevel (processedLayer detect upd getStab l2 b2)
      ∧ (inputCallback detect upd getStab (some l2) b2).2
        = some (processedLayer detect upd getStab l2 b2)
      ∧ getInputLevel (processedLayer detect upd getStab l2 b2)
        = peakLevel (applyGain l2.inputGain b2) := by
  rcases hnz with ⟨x, hx, hxne⟩
  have hne2 : b2 ≠ [] := by
    intro h; subst h; cases hx
  have hlvl1 : getInputLevel (processedLayer detect upd getStab l1 (b2.map (fun x => c * x)))
      = peakLevel (applyGain l1.inputGain (b2.map (fun x => c * x))) := rfl
  have hlvl2 : getInputLevel (processedLayer detect upd getStab l2 b2)
      = peakLevel (applyGain l2.inputGain b2) := rfl
  have hP : 0 < peakLevel b2 := peakLevel_pos hx hxne
  have habsg : 0 < |l2.inputGain| := abs_pos.mpr hgn
  have hpeak1 : peakLevel (applyGain l1.inputGain (b2.map (fun x => c * x)))
      = |l2.inputGain| * (|c| * peakLevel b2) := by
    rw [hg, applyGain, peakLevel_map_mul_right, peakLevel_map_mul_left]
  have hpeak2 : peakLevel (applyGain l2.inputGain b2)
      = |l2.inputGain| * peakLevel b2 := by
    rw [applyGain, peakLevel_map_mul_right]
  refine ⟨?_, ?_, hlvl2⟩
  · rw [hlvl1, hlvl2, hpeak1, hpeak2]
    have hcP : |c| * peakLevel b2 < peakLevel b2 := by
      rw [abs_of_pos hc0]
      calc c * peakLevel b2 < 1 * peakLevel b2 := by
            exact mul_lt_mul_of_pos_right hc1 hP
      _ = peakLevel b2 := one_mul _
    exact mul_lt_mul_of_pos_left hcP habsg
  · match b2, hne2 with
    | y :: rest, _ => rfl

/-- Concrete instantiation of `inputLevel_strict_mono`: halving a one-sample
buffer at unit gain strictly lowers the published level. -/
theorem inputLevel_strict_mono_witness :
    getInputLevel (processedLayer noDetect upd0 gs0
        (mkLayer 1 [0, 0] (List.replicate 8 0))
        (List.map (fun x => (1/2 : ℚ) * x) [1]))
      < getInputLevel (processedLayer noDetect upd0 gs0
        (mkLayer 1 [0, 0] (List.replicate 8 0)) [1]) :=
  (inputLevel_strict_mono noDetect upd0 gs0
      (mkLayer 1 [0, 0] (List.replicate 8 0)) (mkLayer 1 [0, 0] (List.replicate 8 0))
      (1/2) [1] rfl (by norm_num [mkLayer]) (by norm_num) (by norm_num)
      ⟨1, by simp, by norm_num⟩).1

/-- C5 counterexample: the claim as stated fails when the fixed gain is `0`.
The buffers `[1/2]` and `[1]` satisfy all of the claim's premises (equal up
to the positive scale factor `1/2`, first strictly quieter, second not
all-zero, same fixed gain), yet both publish input level `0`, which is not
strictly smaller. -/
theorem inputLevel_claim_fails_at_zero_gain :
    ([(1 : ℚ)/2] = List.map (fun x => (1/2 : ℚ) * x) [1])
      ∧ (0 : ℚ) < 1/2 ∧ (1 : ℚ)/2 < 1 ∧ (∃ x ∈ [(1 : ℚ)], x ≠ 0)
      ∧ ¬ (getInputLevel (processedLayer noDetect upd0 gs0
            (mkLayer 0 [0, 0] (List.replicate 8 0)) [(1 : ℚ)/2])
          < getInputLevel (processedLayer noDetect upd0 gs0
            (mkLayer 0 [0, 0] (List.replicate 8 0)) [1])) := by
  refine ⟨by norm_num, by norm_num, by norm_num, ⟨1, by simp, by norm_num⟩, ?_⟩
  have h1 : getInputLevel (processedLayer noDetect upd0 gs0
      (mkLayer 0 [0, 0] (List.replicate 8 0)) [(1 : ℚ)/2]) = 0 := by
    simp [processedLayer, getInputLevel, applyGain, peakLevel, mkLayer]
  have h2 : getInputLevel (processedLayer noDetect upd0 gs0
      (mkLayer 0 [0, 0] (List.replicate 8 0)) [1]) = 0 := by
    simp [processedLayer, getInputLevel, applyGain, peakLevel, mkLayer]
  rw [h1, h2]
  exact lt_irrefl 0

/-- The monitoring-read loop of `MixFeedback` (lines 417–432): reads
`samplesToRead` samples starting at `readPos`, each scaled by the monitoring
volume (the surrounding code mixes them into the output buffer), advancing
the read position modulo the ring capacity.  Returns the samples read and
the final read position. -/
def mixMonitorRead (ring : List ℚ) (vol : ℚ) : ℕ → ℕ → List ℚ × ℕ
  | 0, r => ([], r)
  | n + 1, r =>
    let sample := ring.getD r 0 * vol
    let res := mixMonitorRead ring vol n ((r + 1) % ring.length)
    (sample :: res.1, res.2)

/-- One interaction with the monitoring ring: a callback-side write of the
gained samples (lines 314–327) or an output-side mix read of up to `frames`
samples (lines 404–435). -/
inductive RingOp where
  | write (samples : List ℚ)
  | mix (frames : ℕ)

/-- The ring-buffer portion of the layer state: backing storage and the two
positions. -/
structure RingState where
  ring : List ℚ
  wpos : ℕ
  rpos : ℕ

/-- Applies one ring interaction.  The mix read computes `available` and
`samplesToRead` exactly as `MixFeedback` does (lines 412–413). -/
def ringStep (vol : ℚ) (st : RingState) : RingOp → RingState
  | RingOp.write samples =>
    let res := writeRing samples st.ring st.wpos
    { st with ring := res.1, wpos := res.2 }
  | RingOp.mix frames =>
    let available :=
      if st.rpos ≤ st.wpos then st.wpos - st.rpos
      else st.ring.length - st.rpos + st.wpos
    let samplesToRead := min available frames
    let res := mixMonitorRead st.ring vol samplesToRead st.rpos
    { st with rpos := res.2 }

/-- Runs a sequence of ring interactions from a starting state. -/
def ringRun (vol : ℚ) (st : RingState) (ops : List RingOp) : RingState :=
  ops.foldl (ringStep vol) st

/-- The C9 invariant: the ring keeps its construction capacity and both
positions stay strictly below it. -/
def RingInv (cap : ℕ) (st : RingState) : Prop :=
  st.ring.length = cap ∧ st.wpos < cap ∧ st.rpos < cap

/-- The ring write loop preserves the ring's length. -/
theorem writeRing_length : ∀ (s ring : List ℚ) (w : ℕ),
    (writeRing s ring w).1.length = ring.length := by
  intro s
  induction s with
  | nil => intro ring w; rfl
  | cons x rest ih =>
    intro ring w
    calc (writeRing (x :: rest) ring w).1.length
        = (writeRing rest (ring.set w x) ((w + 1) % ring.length)).1.length := rfl
    _ = (ring.set w x).length := ih _ _
    _ = ring.length := List.length_set ring w x

/-- The ring write loop keeps the write position strictly below a non-zero
ring length. -/
theorem writeRing_wpos_lt : ∀ (s ring : List ℚ) (w : ℕ),
    0 < ring.length → w < ring.length → (writeRing s ring w).2 < ring.length := by
  intro s
  induction s with
  | nil => intro ring w _ hw; exact hw
  | cons x rest ih =>
    intro ring w h0 _
    have hlen : (ring.set w x).length = ring.length := List.length_set ring w x
    have h0' : 0 < (ring.set w x).length := hlen ▸ h0
    have hmod : (w + 1) % ring.length < (ring.set w x).length := by
      rw [hlen]
      exact Nat.mod_lt _ h0
    have := ih (ring.set w x) ((w + 1) % ring.length) h0' hmod
    rw [hlen] at this
    exact this

/-- The mix read loop keeps the read position strictly below a non-zero ring
length. -/
theorem mixMonitorRead_rpos_lt (ring : List ℚ) (vol : ℚ) : ∀ (n r : ℕ),
    0 < ring.length → r < ring.length →
    (mixMonitorRead ring vol n r).2 < ring.length := by
  intro n
  induction n with
  | zero => intro r _ hr; exact hr
  | succ k ih =>
    intro r h0 _
    exact ih ((r + 1) % ring.length) h0 (Nat.mod_lt _ h0)

/-- One ring interaction preserves the C9 invariant. -/
theorem ringStep_inv {cap : ℕ} (hcap : 0 < cap) (vol : ℚ) (st : RingState)
    (op : RingOp) (h : RingInv cap st) : RingInv cap (ringStep vol st op) := by
  obtain ⟨hlen, hw, hr⟩ := h
  have h0 : 0 < st.ring.length := hlen ▸ hcap
  cases op with
  | write samples =>
    refine ⟨?_, ?_, hr⟩
    · rw [ringStep]
      simpa [writeRing_length] using hlen
    · rw [ringStep]
      simpa [hlen] using writeRing_wpos_lt samples st.ring st.wpos h0 (hlen ▸ hw)
  | mix frames =>
    refine ⟨hlen, hw, ?_⟩
    rw [ringStep]
    simpa [hlen] using
      mixMonitorRead_rpos_lt st.ring vol _ st.rpos h0 (hlen ▸ hr)

/-- Any sequence of ring interactions preserves the C9 invariant. -/
theorem ringRun_inv {cap : ℕ} (hcap : 0 < cap) (vol : ℚ) :
    ∀ (ops : List RingOp) (st : RingState),
    RingInv cap st → RingInv cap (ringRun vol st ops) := by
  intro ops
  induction ops with
  | nil => intro st h; exact h
  | cons op rest ih =>
    intro st h
    exact ih (ringStep vol st op) (ringStep_inv hcap vol st op h)

/-- C9: from the construction state (ring of capacity `4 * bufferSize`
allocated once, both positions `0`), every interleaving of callback writes
and mix reads keeps the ring at its fixed capacity and both positions
strictly below it; moreover every intermediate write position (after any
prefix of the samples) and every intermediate read position stay strictly
below the ring length, so every ring element access is in bounds. -/
theorem monitoringRing_positions_in_bounds (bufferSize : ℕ) (hb : 0 < bufferSize)
    (vol : ℚ) :
    (∀ ops : List RingOp,
        RingInv (bufferSize * 4)
          (ringRun vol (RingState.mk (List.replicate (bufferSize * 4) 0) 0 0) ops))
      ∧ (∀ (samples ring : List ℚ) (w k : ℕ), 0 < ring.length → w < ring.length →
          (writeRing (samples.take k) ring w).2 < ring.length)
      ∧ (∀ (ring : List ℚ) (n r : ℕ), 0 < ring.length → r < ring.length →
          (mixMonitorRead ring vol n r).2 < ring.length) := by
  have hcap : 0 < bufferSize * 4 := by omega
  refine ⟨?_, ?_, ?_⟩
  · intro ops
    exact ringRun_inv hcap vol ops _ ⟨by simp, hcap, hcap⟩
  · intro samples ring w k h0 hw
    exact writeRing_wpos_lt (samples.take k) ring w h0 hw
  · intro ring n r h0 hr
    exact mixMonitorRead_rpos_lt ring vol n r h0 hr

/-- Concrete instantiation of `monitoringRing_positions_in_bounds`: with
`bufferSize = 1` (capacity 4), a write of one sample followed by a mix read
leaves both positions below 4. -/
theorem monitoringRing_positions_in_bounds_witness :
    RingInv (1 * 4)
      (ringRun 1 (RingState.mk (List.replicate (1 * 4) 0) 0 0)
        [RingOp.write [5], RingOp.mix 1]) :=
  (monitoringRing_positions_in_bounds 1 (by norm_num) 1).1
    [RingOp.write [5], RingOp.mix 1]

/-- `PrecisionTuner::TuningMode` (Config.h, lines 14–23). -/
inductive TuningMode where
  | Chromatic
  | Standard
  | DropD
  | DropC
  | DADGAD
  | OpenG
  | OpenD
deriving DecidableEq, Repr

/-- The string-scan loop of `TuningPresets::FindClosestString`
(lines 90–104): `closestIndex` starts unset, `minCentsDiff` starts at the
tolerance, and a string index replaces the candidate only when its absolute
cents deviation is strictly below the running minimum. -/
def fcsLoop (cents : Fin 6 → ℚ) :
    List (Fin 6) → Option (Fin 6) × ℚ → Option (Fin 6) × ℚ
  | [], acc => acc
  | i :: rest, acc =>
    if |cents i| < acc.2 then fcsLoop cents rest (some i, |cents i|)
    else fcsLoop cents rest acc

/-- `TuningPresets::FindClosestString` (lines 79–112), parametric over the
per-string absolute cents deviations: `cents i` stands for
`NoteConverter::FrequencyToCents(frequency, preset.targetFrequencies[i])`
(computed by the external `GuitarDSP` library from the preset of the given
mode).  Chromatic mode returns `nullopt` before any scan. -/
def findClosestString (mode : TuningMode) (cents : Fin 6 → ℚ) (toleranceCents : ℚ) :
    Option (Fin 6) :=
  if mode = TuningMode.Chromatic then none
  else (fcsLoop cents (List.finRange 6) (none, toleranceCents)).1

/-- The running minimum of the string-scan loop never increases. -/
theorem fcsLoop_snd_le (cents : Fin 6 → ℚ) :
    ∀ (l : List (Fin 6)) (acc : Option (Fin 6) × ℚ),
    (fcsLoop cents l acc).2 ≤ acc.2 := by
  intro l
  induction l with
  | nil => intro acc; exact le_refl _
  | cons i rest ih =>
    intro acc
    rw [fcsLoop]
    split
    · exact le_of_lt (lt_of_le_of_lt (ih (some i, |cents i|)) (by assumption))
    · exact ih acc

/-- The final running minimum of the string-scan loop is bounded by the
deviation of every scanned string. -/
theorem fcsLoop_snd_le_mem (cents : Fin 6 → ℚ) :
    ∀ (l : List (Fin 6)) (acc : Option (Fin 6) × ℚ) (i : Fin 6), i ∈ l →
    (fcsLoop cents l acc).2 ≤ |cents i| := by
  intro l
  induction l with
  | nil => intro acc i hi; cases hi
  | cons j rest ih =>
    intro acc i hi
    rcases List.mem_cons.mp hi with h | h
    · subst h
      rw [fcsLoop]
      split
      · exact fcsLoop_snd_le cents rest (some i, |cents i|)
      · exact le_trans (fcsLoop_snd_le cents rest acc) (le_of_not_lt (by assumption))
    · rw [fcsLoop]
      split
      · exact ih (some j, |cents j|) i h
      · exact ih acc i h

/-- The string-scan loop either leaves the accumulator untouched or settles
on a string whose deviation equals the final running minimum and is strictly
below the starting minimum. -/
theorem fcsLoop_fst_cases (cents : Fin 6 → ℚ) :
    ∀ (l : List (Fin 6)) (acc : Option (Fin 6) × ℚ),
    fcsLoop cents l acc = acc
      ∨ ∃ i, (fcsLoop cents l acc).1 = some i
          ∧ (fcsLoop cents l acc).2 = |cents i| ∧ |cents i| < acc.2 := by
  intro l
  induction l with
  | nil => intro acc; exact Or.inl rfl
  | cons j rest ih =>
    intro acc
    rw [fcsLoop]
    split
    · rcases ih (some j, |cents j|) with h | ⟨i, h1, h2, h3⟩
      · refine Or.inr ⟨j, ?_, ?_, by assumption⟩
        · rw [h]
        · rw [h]
      · exact Or.inr ⟨i, h1, h2, lt_trans h3 (by assumption)⟩
    · exact ih acc

/-- C8: for every non-Chromatic mode, `FindClosestString` returns a string
index `i` only when the absolute cents deviation of string `i` is strictly
below the tolerance and minimal over all six strings; it returns `nullopt`
exactly when the mode is Chromatic or no string's deviation is strictly
below the tolerance (a deviation equal to the tolerance never matches). -/
theorem findClosestString_spec (mode : TuningMode) (cents : Fin 6 → ℚ) (tol : ℚ) :
    (∀ i, findClosestString mode cents tol = some i →
        mode ≠ TuningMode.Chromatic ∧ |cents i| < tol ∧ ∀ j, |cents i| ≤ |cents j|)
      ∧ (findClosestString mode cents tol = none ↔
          mode = TuningMode.Chromatic ∨ ∀ j : Fin 6, ¬ |cents j| < tol) := by
  by_cases hm : mode = TuningMode.Chromatic
  · constructor
    · intro i hi
      rw [findClosestString, if_pos hm] at hi
      cases hi
    · rw [findClosestString, if_pos hm]
      simp [hm]
  · have hrw : findClosestString mode cents tol
        = (fcsLoop cents (List.finRange 6) (none, tol)).1 := by
      rw [findClosestString, if_neg hm]
    constructor
    · intro i hi
      rw [hrw] at hi
      rcases fcsLoop_fst_cases cents (List.finRange 6) (none, tol) with h | ⟨i', h1, h2, h3⟩
      · rw [h] at hi; cases hi
      · have hii : i' = i := by
          rw [h1] at hi; exact Option.some.inj hi
        subst hii
        refine ⟨hm, h3, ?_⟩
        intro j
        have := fcsLoop_snd_le_mem cents (List.finRange 6) (none, tol) j
          (List.mem_finRange j)
        rw [h2] at this
        exact this
    · rw [hrw]
      constructor
      · intro hnone
        refine Or.inr ?_
        intro j hj
        rcases fcsLoop_fst_cases cents (List.finRange 6) (none, tol) with h | ⟨i', h1, h2, h3⟩
        · have := fcsLoop_snd_le_mem cents (List.finRange 6) (none, tol) j
            (List.mem_finRange j)
          rw [h] at this
          exact absurd hj (not_lt_of_le this)
        · rw [h1] at hnone; cases hnone
      · intro h
        rcases h with h | hall
        · exact absurd h hm
        · rcases fcsLoop_fst_cases cents (List.finRange 6) (none, tol) with h | ⟨i', h1, h2, h3⟩
          · rw [h]
          · exact absurd h3 (hall i')

/-- Concrete instantiation of `findClosestString_spec`: with every string
30 cents away and a 25-cent tolerance, Standard mode matches no string. -/
theorem findClosestString_spec_witness :
    findClosestString TuningMode.Standard (fun _ => 30) 25 = none :=
  (findClosestString_spec TuningMode.Standard (fun _ => 30) 25).2.mpr
    (Or.inr (by intro j; norm_num))

/-- A JSON value of the kinds `AudioConfig` serialization produces
(`nlohmann::json` restricted to the leaf types used in Config.h). -/
inductive JsonValue where
  | jint (n : ℤ)
  | jstr (s : String)
  | jbool (b : Bool)
  | jnum (q : ℚ)
deriving DecidableEq, Repr

/-- A JSON object as the ordered key-value list built by `to_json`. -/
abbrev Json := List (String × JsonValue)

/-- `PrecisionTuner::AudioConfig` (Config.h, lines 47–73), with the C++
member initializers as field defaults. -/
structure AudioConfig where
  deviceId : ℤ := -1
  deviceName : String := ""
  sampleRate : ℤ := 48000
  bufferSize : ℤ := 256
  inputChannel : ℤ := 0
  autoSelectInput : Bool := true
  outputDeviceId : ℤ := -1
  outputDeviceName : String := ""
  enableBeep : Bool := false
  beepVolume : ℚ := 1/2
  enableReference : Bool := false
  referenceVolume : ℚ := 1/2
  referenceFrequency : ℚ := 440
  enableInputMonitoring : Bool := false
  monitoringVolume : ℚ := 1/2
  inputGain : ℚ := 1
  enableDroneMode : Bool := false
  enablePolyphonicMode : Bool := false
deriving DecidableEq, Repr

/-- `nlohmann::json::value(key, default)` for an integer field: the stored
value when the key is present, the default otherwise.  (On a present key of
the wrong type nlohmann throws; `to_json` output never produces that.) -/
def jvalueInt (j : Json) (key : String) (d : ℤ) : ℤ :=
  match j.lookup key with
  | some (JsonValue.jint n) => n
  | _ => d

/-- `nlohmann::json::value(key, default)` for a string field. -/
def jvalueStr (j : Json) (key : String) (d : String) : String :=
  match j.lookup key with
  | some (JsonValue.jstr s) => s
  | _ => d

/-- `nlohmann::json::value(key, default)` for a boolean field. -/
def jvalueBool (j : Json) (key : String) (d : Bool) : Bool :=
  match j.lookup key with
  | some (JsonValue.jbool b) => b
  | _ => d

/-- `nlohmann::json::value(key, default)` for a float field. -/
def jvalueNum (j : Json) (key : String) (d : ℚ) : ℚ :=
  match j.lookup key with
  | some (JsonValue.jnum q) => q
  | _ => d

/-- `to_json(nlohmann::json&, const AudioConfig&)` (Config.h, lines 76–92):
serializes exactly fourteen fields; `sampleRate`, `bufferSize`,
`inputChannel` and `autoSelectInput` are not written. -/
def audioConfigToJson (c : AudioConfig) : Json :=
  [("deviceId", JsonValue.jint c.deviceId),
   ("deviceName", JsonValue.jstr c.deviceName),
   ("outputDeviceId", JsonValue.jint c.outputDeviceId),
   ("outputDeviceName", JsonValue.jstr c.outputDeviceName),
   ("enableBeep", JsonValue.jbool c.enableBeep),
   ("beepVolume", JsonValue.jnum c.beepVolume),
   ("enableReference", JsonValue.jbool c.enableReference),
   ("referenceVolume", JsonValue.jnum c.referenceVolume),
   ("referenceFrequency", JsonValue.jnum c.referenceFrequency),
   ("enableInputMonitoring", JsonValue.jbool c.enableInputMonitoring),
   ("monitoringVolume", JsonValue.jnum c.monitoringVolume),
   ("inputGain", JsonValue.jnum c.inputGain),
   ("enableDroneMode", JsonValue.jbool c.enableDroneMode),
   ("enablePolyphonicMode", JsonValue.jbool c.enablePolyphonicMode)]

/-- `from_json(const nlohmann::json&, AudioConfig&)` (Config.h,
lines 94–110): assigns the fourteen serialized fields from the object (with
`AudioConfig{}`'s member value as per-key fallback) and leaves the target's
other four fields untouched. -/
def audioConfigFromJson (j : Json) (c : AudioConfig) : AudioConfig :=
  { c with
      deviceId := jvalueInt j "deviceId" ({} : AudioConfig).deviceId
      deviceName := jvalueStr j "deviceName" ({} : AudioConfig).deviceName
      outputDeviceId := jvalueInt j "outputDeviceId" ({} : AudioConfig).outputDeviceId
      outputDeviceName := jvalueStr j "outputDeviceName" ({} : AudioConfig).outputDeviceName
      enableBeep := jvalueBool j "enableBeep" ({} : AudioConfig).enableBeep
      beepVolume := jvalueNum j "beepVolume" ({} : AudioConfig).beepVolume
      enableReference := jvalueBool j "enableReference" ({} : AudioConfig).enableReference
      referenceVolume := jvalueNum j "referenceVolume" ({} : AudioConfig).referenceVolume
      referenceFrequency := jvalueNum j "referenceFrequency" ({} : AudioConfig).referenceFrequency
      enableInputMonitoring := jvalueBool j "enableInputMonitoring" ({} : AudioConfig).enableInputMonitoring
      monitoringVolume := jvalueNum j "monitoringVolume" ({} : AudioConfig).monitoringVolume
      inputGain := jvalueNum j "inputGain" ({} : AudioConfig).inputGain
      enableDroneMode := jvalueBool j "enableDroneMode" ({} : AudioConfig).enableDroneMode
      enablePolyphonicMode := jvalueBool j "enablePolyphonicMode" ({} : AudioConfig).enablePolyphonicMode }

/-- Deserializing into a fresh `AudioConfig` (nlohmann `get<AudioConfig>()`
default-constructs the target before calling `from_json`). -/
def getAudioConfig (j : Json) : AudioConfig :=
  audioConfigFromJson j {}

/-- C10: `from_json` after `to_json` reproduces the fourteen serialized
device-identity and feedback fields of any `AudioConfig`, while
`sampleRate`, `bufferSize`, `inputChannel` and `autoSelectInput` are not
serialized and come back as the default-constructed values. -/
theorem audioConfig_roundtrip (c : AudioConfig) :
    getAudioConfig (audioConfigToJson c)
      = { c with
            sampleRate := ({} : AudioConfig).sampleRate
            bufferSize := ({} : AudioConfig).bufferSize
            inputChannel := ({} : AudioConfig).inputChannel
            autoSelectInput := ({} : AudioConfig).autoSelectInput } :=
  rfl

end PrecisionTuner
